import Mathlib

/-!
Shallow embedding of the Mastodon battle-bot engine (`index.js`):
the `Battle` state machine (combat math, round resolution, action
submission) and the `BattleManager` registry.

Modelling conventions:
* JavaScript numbers holding character stats are modelled as `Int`
  (all stats in the character store are integers); probabilities and
  random draws are modelled as `ℚ` (exact values of the literals in
  the source; `Math.random()` yields a value in `[0,1)`).
* `Math.random()` is modelled by an explicit draw stream `RNG`:
  each call consumes the draw at the current index and advances the
  index by one, so "how many rolls happened" is observable.
* The `this.actions` object of a `Battle` has exactly the two keys
  `playerA.id` and `playerB.id` (distinct for every battle the
  program constructs); it is modelled by the two slots `actionA`,
  `actionB`, with key lookup and update dispatching on the id.
* `turnOrder` stores the two player *references* in the source; since
  only `hp` is mutated and every read goes through the battle object,
  it is modelled by a pair of `Side` tags resolved against the
  current players.
* The Korean battle-log text built by `resolveRound` is elided (the
  claims are about state, `done` flags and rejection messages);
  rejection and waiting messages of `setAction` are kept verbatim.
* `Map` registries of `BattleManager` are modelled as functions
  `String → Option α`.
-/

attribute [local semireducible] Rat.add Rat.mul Rat.sub Rat.inv

/-- Closed action set, `ACTION` in the source: submitted actions arrive
as strings and are validated by membership. -/
def ACTION.ATTACK : String := "attack"

/-- Action constant `ACTION.DEFEND`. -/
def ACTION.DEFEND : String := "defend"

/-- Action constant `ACTION.EVADE`. -/
def ACTION.EVADE : String := "evade"

/-- Combat snapshot of one participant (`buildCharacterFromAcct`
produces these with `hp = maxHp`). -/
structure Combatant where
  id : String
  name : String
  maxHp : Int
  hp : Int
  atk : Int
  def_ : Int
  agi : Int
  speed : Int
  crit : ℚ
  deriving DecidableEq

/-- Tag for the two sides of a battle (the source passes the player
objects `playerA` / `playerB` by reference). -/
inductive Side where
  | A : Side
  | B : Side
  deriving DecidableEq

/-- Explicit stream of `Math.random()` draws: `draws n` is the value
returned by the `n`-th call, `idx` the number of calls made so far. -/
structure RNG where
  draws : Nat → ℚ
  idx : Nat

/-- Consume one `Math.random()` draw. -/
def RNG.next (g : RNG) : ℚ × RNG :=
  (g.draws g.idx, { g with idx := g.idx + 1 })

/-- State of one battle (fields of `class Battle`). -/
structure Battle where
  playerA : Combatant
  playerB : Combatant
  turnOrder : Side × Side
  actionA : Option String
  actionB : Option String
  round : Int
  isFinished : Bool
  winnerId : Option String
  deriving DecidableEq

/-- Resolve a side tag to the current combatant. -/
def Battle.player (b : Battle) : Side → Combatant
  | Side.A => b.playerA
  | Side.B => b.playerB

/-- Pending action slot of a side (`this.actions[player.id]`). -/
def Battle.actionOf (b : Battle) : Side → Option String
  | Side.A => b.actionA
  | Side.B => b.actionB

/-- Write a side's current hp (`defender.hp = ...`). -/
def Battle.setHp (b : Battle) (s : Side) (v : Int) : Battle :=
  match s with
  | Side.A => { b with playerA := { b.playerA with hp := v } }
  | Side.B => { b with playerB := { b.playerB with hp := v } }

/-- Source `getPlayer(id)`. -/
def Battle.getPlayer (b : Battle) (id : String) : Option Combatant :=
  if b.playerA.id = id then some b.playerA
  else if b.playerB.id = id then some b.playerB
  else none

/-- Source `getOpponent(id)`. -/
def Battle.getOpponent (b : Battle) (id : String) : Option Combatant :=
  if b.playerA.id = id then some b.playerB
  else if b.playerB.id = id then some b.playerA
  else none

/-- Lookup `this.actions[id]` by participant id. -/
def Battle.readAction (b : Battle) (id : String) : Option String :=
  if id = b.playerA.id then b.actionA
  else if id = b.playerB.id then b.actionB
  else none

/-- Update `this.actions[id] = a` by participant id. -/
def Battle.writeAction (b : Battle) (id : String) (a : Option String) : Battle :=
  if id = b.playerA.id then { b with actionA := a }
  else if id = b.playerB.id then { b with actionB := a }
  else b

/-- Source `isReady()`: every pending slot is non-null. -/
def Battle.isReady (b : Battle) : Bool :=
  b.actionA.isSome && b.actionB.isSome

/-- Source `resetActions()`. -/
def Battle.resetActions (b : Battle) : Battle :=
  { b with actionA := none, actionB := none }

/-- Source `decideOrder()`: higher speed first; on a tie a single
`Math.random() < 0.5` coin flip decides. -/
def Battle.decideOrder (a b : Combatant) (g : RNG) : (Side × Side) × RNG :=
  if a.speed > b.speed then ((Side.A, Side.B), g)
  else if b.speed > a.speed then ((Side.B, Side.A), g)
  else
    let d := g.next
    if d.1 < (1 : ℚ) / 2 then ((Side.A, Side.B), d.2) else ((Side.B, Side.A), d.2)

/-- Source `constructor(playerA, playerB)`: snapshot players, compute
the turn order once, clear both action slots, round 1, not finished. -/
def Battle.create (a b : Combatant) (g : RNG) : Battle × RNG :=
  let ord := Battle.decideOrder a b g
  ({ playerA := a, playerB := b, turnOrder := ord.1,
     actionA := none, actionB := none,
     round := 1, isFinished := false, winnerId := none }, ord.2)

/-- Source `checkEnd()`: sets `isFinished` / `winnerId` when some hp
has dropped to 0 or below, and reports whether the battle ended. -/
def Battle.checkEnd (b : Battle) : Bool × Battle :=
  if b.playerA.hp ≤ 0 ∧ b.playerB.hp ≤ 0 then
    (true, { b with isFinished := true, winnerId := none })
  else if b.playerA.hp ≤ 0 then
    (true, { b with isFinished := true, winnerId := some b.playerB.id })
  else if b.playerB.hp ≤ 0 then
    (true, { b with isFinished := true, winnerId := some b.playerA.id })
  else (false, b)

/-- Source `isAttackHit(attacker, defender)`:
`clamp(0.10, 0.95, 0.80 + (agi difference) * 0.005)` against one draw. -/
def Battle.isAttackHit (attacker defender : Combatant) (g : RNG) : Bool × RNG :=
  let base : ℚ := 80 / 100
  let diff : ℚ := ((attacker.agi : ℚ) - (defender.agi : ℚ)) * (5 / 1000)
  let hit : ℚ := max (10 / 100) (min (95 / 100) (base + diff))
  let d := g.next
  (decide (d.1 < hit), d.2)

/-- Source `tryEvade(defender)`: chance `clamp(0.05, 0.60, agi / 100)`. -/
def Battle.tryEvade (defender : Combatant) (g : RNG) : Bool × RNG :=
  let chance : ℚ := max (5 / 100) (min (60 / 100) ((defender.agi : ℚ) / 100))
  let d := g.next
  (decide (d.1 < chance), d.2)

/-- Source `tryDefend(defender)`: chance `clamp(0.05, 0.60, def / 100)`. -/
def Battle.tryDefend (defender : Combatant) (g : RNG) : Bool × RNG :=
  let chance : ℚ := max (5 / 100) (min (60 / 100) ((defender.def_ : ℚ) / 100))
  let d := g.next
  (decide (d.1 < chance), d.2)

/-- Result object of `calcDamage`; the source leaves `crit` and
`defended` `undefined` outside their branches, modelled by `false`
resp. `none`. -/
structure DamageResult where
  dmg : Int
  crit : Bool
  defended : Option Bool
  deriving DecidableEq

/-- Source `calcDamage(attacker, defender, defenderAction)`: a crit
draw below `attacker.crit` yields `max(0, floor(atk * 1.5))` and
returns at once; otherwise a declared Defend rolls `tryDefend` and on
success reduces to `max(0, atk - def)`; otherwise full `atk`. -/
def Battle.calcDamage (attacker defender : Combatant)
    (defenderAction : Option String) (g : RNG) : DamageResult × RNG :=
  let dmg := attacker.atk
  let d := g.next
  if d.1 < attacker.crit then
    ({ dmg := max 0 (Int.floor ((dmg : ℚ) * (3 / 2))), crit := true, defended := none }, d.2)
  else if defenderAction = some ACTION.DEFEND then
    let ok := Battle.tryDefend defender d.2
    if ok.1 then
      ({ dmg := max 0 (dmg - defender.def_), crit := false, defended := some true }, ok.2)
    else
      ({ dmg := dmg, crit := false, defended := some false }, ok.2)
  else
    ({ dmg := dmg, crit := false, defended := none }, d.2)

/-- Source `processSingleAction(attacker, defender)`: a declared
Defend/Evade of the attacker is announcement only; an Attack first
lets an Evade declaration roll (success negates everything), then
rolls the hit chance, then computes damage and clamps the defender's
hp at 0.  Battle-log lines are elided. -/
def Battle.processSingleAction (b : Battle) (atkSide dfdSide : Side) (g : RNG) :
    Battle × RNG :=
  let attackerAction := b.actionOf atkSide
  let defenderAction := b.actionOf dfdSide
  if attackerAction = some ACTION.DEFEND then (b, g)
  else if attackerAction = some ACTION.EVADE then (b, g)
  else if attackerAction = some ACTION.ATTACK then
    let ev :=
      if defenderAction = some ACTION.EVADE then Battle.tryEvade (b.player dfdSide) g
      else (false, g)
    if ev.1 then (b, ev.2)
    else
      let hit := Battle.isAttackHit (b.player atkSide) (b.player dfdSide) ev.2
      if hit.1 = false then (b, hit.2)
      else
        let dr := Battle.calcDamage (b.player atkSide) (b.player dfdSide) defenderAction hit.2
        (b.setHp dfdSide (max 0 ((b.player dfdSide).hp - dr.1.dmg)), dr.2)
  else (b, g)

/-- Source `resolveRound()`: process the first side's action, re-check
the end condition before the second side acts, then either finish or
advance the round and clear both slots.  Log text is elided. -/
def Battle.resolveRound (b : Battle) (g : RNG) : Battle × RNG :=
  let first := b.turnOrder.1
  let second := b.turnOrder.2
  let p1 := b.processSingleAction first second g
  let e1 := p1.1.checkEnd
  let p2 := if e1.1 then (e1.2, p1.2) else e1.2.processSingleAction second first p1.2
  let e2 := p2.1.checkEnd
  if e2.1 then (e2.2, p2.2)
  else ({ e2.2 with round := e2.2.round + 1, actionA := none, actionB := none }, p2.2)

/-- Result of `setAction`, `{ done, message }` in the source. -/
structure ActionResult where
  done : Bool
  message : String
  deriving DecidableEq

/-- Source `setAction(playerId, action)`: reject when finished / not a
participant / invalid action (each without mutation); otherwise store
the action (overwriting), and either wait for the opponent or resolve
the round.  The resolved-round log string is elided as `""`. -/
def Battle.setAction (b : Battle) (playerId action : String) (g : RNG) :
    ActionResult × Battle × RNG :=
  if b.isFinished then
    ({ done := true, message := "이미 끝난 전투야." }, b, g)
  else if ¬ (playerId = b.playerA.id ∨ playerId = b.playerB.id) then
    ({ done := false, message := "너는 이 전투 참가자가 아니야." }, b, g)
  else if ¬ (action = ACTION.ATTACK ∨ action = ACTION.DEFEND ∨ action = ACTION.EVADE) then
    ({ done := false, message := "가능한 행동: 공격/방어/회피" }, b, g)
  else
    let b1 := b.writeAction playerId (some action)
    if b1.isReady = false then
      let otherAction :=
        match b1.getOpponent playerId with
        | some other => b1.readAction other.id
        | none => none
      let waitMsg :=
        if otherAction.isSome then "너도 선택했고 상대도 선택했어… 어? (이상함)"
        else "행동 선택 완료. 상대를 기다리는 중..."
      ({ done := false, message := waitMsg }, b1, g)
    else
      let r := b1.resolveRound g
      ({ done := true, message := "" }, r.1, r.2)

/-- Lexicographic strict comparison of character lists by code point,
the order JavaScript's default array `sort()` applies to strings. -/
def charListLtb : List Char → List Char → Bool
  | [], [] => false
  | [], _ :: _ => true
  | _ :: _, [] => false
  | c :: cs, d :: ds =>
    if c < d then true
    else if d < c then false
    else charListLtb cs ds

/-- String comparison backing `makeBattleId`: `a` sorts no later than
`b`. -/
def strLeb (a b : String) : Bool := !(charListLtb b.data a.data)

/-- Source `makeBattleId(acctA, acctB)`: sort the two accts and join
with `"__"` (the canonical key of the unordered pair). -/
def makeBattleId (acctA acctB : String) : String :=
  if strLeb acctA acctB then acctA ++ "__" ++ acctB else acctB ++ "__" ++ acctA

/-- Insert into a registry map (`Map.set`). -/
def mapInsert {α : Type} (m : String → Option α) (k : String) (v : α) :
    String → Option α :=
  fun k' => if k' = k then some v else m k'

/-- Remove from a registry map (`Map.delete`). -/
def mapDelete {α : Type} (m : String → Option α) (k : String) :
    String → Option α :=
  fun k' => if k' = k then none else m k'

/-- State of `class BattleManager`: `battlesById` and
`battleIdByPlayer`. -/
structure BattleManager where
  battlesById : String → Option Battle
  battleIdByPlayer : String → Option String

/-- The empty registry (`new BattleManager()`). -/
def BattleManager.empty : BattleManager :=
  { battlesById := fun _ => none, battleIdByPlayer := fun _ => none }

/-- Source `findBattleForPlayer(acct)`. -/
def BattleManager.findBattleForPlayer (m : BattleManager) (acct : String) :
    Option Battle :=
  match m.battleIdByPlayer acct with
  | none => none
  | some bid => m.battlesById bid

/-- Result of `startBattle`, `{ ok, battleId, message }` in the source
(the intro text of the success branch is elided as `""`). -/
structure StartResult where
  ok : Bool
  battleId : String
  message : String
  deriving DecidableEq

/-- Result of `BattleManager.submitAction`, `{ ok, message }`. -/
structure SubmitResult where
  ok : Bool
  message : String
  deriving DecidableEq

/-- Source `startBattle(charA, charB)`: reject when the pair key is
live or either participant is engaged (without mutation); otherwise
construct the battle and register the key and both participants. -/
def BattleManager.startBattle (m : BattleManager) (charA charB : Combatant)
    (g : RNG) : StartResult × BattleManager × RNG :=
  let battleId := makeBattleId charA.id charB.id
  if (m.battlesById battleId).isSome then
    ({ ok := false, battleId := battleId, message := "이미 진행 중인 전투야." }, m, g)
  else if (m.battleIdByPlayer charA.id).isSome || (m.battleIdByPlayer charB.id).isSome then
    ({ ok := false, battleId := battleId, message := "둘 중 누군가 이미 다른 전투 중이야." }, m, g)
  else
    let cr := Battle.create charA charB g
    ({ ok := true, battleId := battleId, message := "" },
     { battlesById := mapInsert m.battlesById battleId cr.1,
       battleIdByPlayer :=
         mapInsert (mapInsert m.battleIdByPlayer charA.id battleId) charB.id battleId },
     cr.2)

/-- Source `BattleManager.submitAction(playerAcct, action)`: look up
the caller's battle (reject `ok := false` if none), delegate to
`Battle.setAction` (the battle object is mutated in place, modelled
by writing the updated battle back under its key), and if the battle
is now finished remove both participants and the key; the delegated
result's message is passed through with `ok := true`. -/
def BattleManager.submitAction (m : BattleManager) (playerAcct action : String)
    (g : RNG) : SubmitResult × BattleManager × RNG :=
  match m.findBattleForPlayer playerAcct with
  | none =>
    ({ ok := false, message := "너는 지금 전투 중이 아니야." }, m, g)
  | some battle =>
    let r := battle.setAction playerAcct action g
    let battle' := r.2.1
    let m1 : BattleManager :=
      { m with battlesById :=
          match m.battleIdByPlayer playerAcct with
          | some bid => mapInsert m.battlesById bid battle'
          | none => m.battlesById }
    let m2 : BattleManager :=
      if battle'.isFinished then
        { battlesById :=
            match m.battleIdByPlayer playerAcct with
            | some bid => mapDelete m1.battlesById bid
            | none => m1.battlesById,
          battleIdByPlayer :=
            mapDelete (mapDelete m1.battleIdByPlayer battle'.playerA.id) battle'.playerB.id }
      else m1
    ({ ok := true, message := r.1.message }, m2, r.2.2)

/-- Both combatants' hp lie in `[0, maxHp]`. -/
def Battle.HpInv (b : Battle) : Prop :=
  0 ≤ b.playerA.hp ∧ b.playerA.hp ≤ b.playerA.maxHp ∧
  0 ≤ b.playerB.hp ∧ b.playerB.hp ≤ b.playerB.maxHp

/-- Both combatants' attack stats are non-negative. -/
def Battle.AtkOk (b : Battle) : Prop :=
  0 ≤ b.playerA.atk ∧ 0 ≤ b.playerB.atk

/-- Registry invariant of `BattleManager`: every `battleIdByPlayer`
entry points to a live battle the identity takes part in, and every
registered battle is unfinished, has two distinct participants, sits
under its canonical pair key, and has both participants registered
back to that key. -/
def BattleManager.Inv (m : BattleManager) : Prop :=
  (∀ acct bid, m.battleIdByPlayer acct = some bid →
     ∃ bt, m.battlesById bid = some bt ∧
       (acct = bt.playerA.id ∨ acct = bt.playerB.id)) ∧
  (∀ bid bt, m.battlesById bid = some bt →
     bt.isFinished = false ∧ bt.playerA.id ≠ bt.playerB.id ∧
     bid = makeBattleId bt.playerA.id bt.playerB.id ∧
     m.battleIdByPlayer bt.playerA.id = some bid ∧
     m.battleIdByPlayer bt.playerB.id = some bid)

/-- Draw stream that answers every `Math.random()` call with the same
value (used to instantiate theorems at concrete inputs). -/
def constRNG (q : ℚ) : RNG :=
  { draws := fun _ => q, idx := 0 }

/-- Combatant `sawa_2@mastodon.social` of the character store
(`loadCharacters`), snapshot at full hp. -/
def sawa : Combatant :=
  { id := "sawa_2@mastodon.social", name := "사와", maxHp := 100, hp := 100,
    atk := 20, def_ := 10, agi := 15, speed := 18, crit := mkRat 1 10 }

/-- Combatant `sawa_@mastodon.social` of the character store, snapshot
at full hp. -/
def sawa2 : Combatant :=
  { id := "sawa_@mastodon.social", name := "사와 2", maxHp := 90, hp := 90,
    atk := 22, def_ := 9, agi := 28, speed := 20, crit := mkRat 12 100 }

/-- Small fragile fighter used to instantiate finish scenarios. -/
def fighterA : Combatant :=
  { id := "a", name := "A", maxHp := 1, hp := 1,
    atk := 100, def_ := 1, agi := 10, speed := 2, crit := 0 }

/-- Opponent of `fighterA` with lower speed. -/
def fighterB : Combatant :=
  { id := "b", name := "B", maxHp := 1, hp := 1,
    atk := 100, def_ := 1, agi := 10, speed := 1, crit := 0 }

/-- Draw stream constantly answering `1/2`. -/
def rngHalf : RNG := constRNG (mkRat 1 2)

/-- Battle freshly created between `fighterA` and `fighterB`. -/
def createdBattle : Battle := (Battle.create fighterA fighterB (constRNG 0)).1

/-- An already-finished battle (terminal state). -/
def finishedBattle : Battle := { createdBattle with isFinished := true }

/-- Battle state in which an Attack meets a declared Evade. -/
def evadeFixture : Battle :=
  { (Battle.create sawa sawa2 (constRNG 0)).1 with
    actionA := some ACTION.ATTACK, actionB := some ACTION.EVADE }

/-- Battle state with both pending actions set to Attack. -/
def bothReady : Battle :=
  { createdBattle with
    actionA := some ACTION.ATTACK, actionB := some ACTION.ATTACK }

/-- Registry whose key set is saturated (every key maps to a battle). -/
def occupiedManager : BattleManager :=
  { battlesById := fun _ => some createdBattle,
    battleIdByPlayer := fun _ => none }

/-- Registry after starting a battle between `fighterA` and `fighterB`. -/
def managerWithBattle : BattleManager :=
  (BattleManager.empty.startBattle fighterA fighterB (constRNG 0)).2.1

/-- Registry after `fighterA`'s Attack was recorded (awaiting `fighterB`). -/
def managerMid : BattleManager :=
  (managerWithBattle.submitAction "a" ACTION.ATTACK rngHalf).2.1

/-- Battle held by `managerMid`: `fighterA`'s Attack is pending. -/
def midBattle : Battle :=
  (createdBattle.setAction "a" ACTION.ATTACK rngHalf).2.1

theorem charListLtb_asymm :
    ∀ {x y : List Char}, charListLtb x y = true → charListLtb y x = false := by
  intro x
  induction x with
  | nil =>
    intro y h
    cases y with
    | nil => simp [charListLtb] at h
    | cons d ds => simp [charListLtb]
  | cons c cs ih =>
    intro y h
    cases y with
    | nil => simp [charListLtb] at h
    | cons d ds =>
      simp only [charListLtb] at h ⊢
      by_cases h1 : c < d
      · simp [h1, lt_asymm h1]
      · by_cases h2 : d < c
        · simp [h1, h2] at h
        · simp only [h1, h2, if_false] at h ⊢
          exact ih h

theorem charListLtb_eq_of_both_false :
    ∀ {x y : List Char}, charListLtb x y = false → charListLtb y x = false → x = y := by
  intro x
  induction x with
  | nil =>
    intro y h1 _
    cases y with
    | nil => rfl
    | cons d ds => simp [charListLtb] at h1
  | cons c cs ih =>
    intro y h1 h2
    cases y with
    | nil => simp [charListLtb] at h2
    | cons d ds =>
      simp only [charListLtb] at h1 h2
      by_cases hcd : c < d
      · simp [hcd] at h1
      · by_cases hdc : d < c
        · simp [hdc] at h2
        · have hce : c = d := le_antisymm (not_lt.mp hdc) (not_lt.mp hcd)
          simp only [hcd, hdc, if_false] at h1 h2
          rw [hce, ih h1 h2]

theorem strLeb_total (a b : String) (h : strLeb a b = false) : strLeb b a = true := by
  unfold strLeb at h ⊢
  simp only [Bool.not_eq_false'] at h
  simp [charListLtb_asymm h]

theorem strLeb_antisymm (a b : String) (h1 : strLeb a b = true)
    (h2 : strLeb b a = true) : a = b := by
  unfold strLeb at h1 h2
  simp only [Bool.not_eq_true'] at h1 h2
  exact String.ext (charListLtb_eq_of_both_false h2 h1)

theorem makeBattleId_comm (a b : String) : makeBattleId a b = makeBattleId b a := by
  unfold makeBattleId
  by_cases h1 : strLeb a b = true
  · by_cases h2 : strLeb b a = true
    · rw [strLeb_antisymm a b h1 h2]
    · simp [h1, h2]
  · have h2 := strLeb_total a b (Bool.not_eq_true _ ▸ h1)
    simp [h1, h2]

@[simp] theorem Battle.player_A (b : Battle) : b.player Side.A = b.playerA := rfl

@[simp] theorem Battle.player_B (b : Battle) : b.player Side.B = b.playerB := rfl

@[simp] theorem Battle.actionOf_A (b : Battle) : b.actionOf Side.A = b.actionA := rfl

@[simp] theorem Battle.actionOf_B (b : Battle) : b.actionOf Side.B = b.actionB := rfl

@[simp] theorem Battle.setHp_turnOrder (b : Battle) (s : Side) (v : Int) :
    (b.setHp s v).turnOrder = b.turnOrder := by cases s <;> rfl

@[simp] theorem Battle.setHp_round (b : Battle) (s : Side) (v : Int) :
    (b.setHp s v).round = b.round := by cases s <;> rfl

@[simp] theorem Battle.setHp_isFinished (b : Battle) (s : Side) (v : Int) :
    (b.setHp s v).isFinished = b.isFinished := by cases s <;> rfl

@[simp] theorem Battle.setHp_winnerId (b : Battle) (s : Side) (v : Int) :
    (b.setHp s v).winnerId = b.winnerId := by cases s <;> rfl

@[simp] theorem Battle.setHp_actionA (b : Battle) (s : Side) (v : Int) :
    (b.setHp s v).actionA = b.actionA := by cases s <;> rfl

@[simp] theorem Battle.setHp_actionB (b : Battle) (s : Side) (v : Int) :
    (b.setHp s v).actionB = b.actionB := by cases s <;> rfl

@[simp] theorem Battle.setHp_playerA_id (b : Battle) (s : Side) (v : Int) :
    (b.setHp s v).playerA.id = b.playerA.id := by cases s <;> rfl

@[simp] theorem Battle.setHp_playerB_id (b : Battle) (s : Side) (v : Int) :
    (b.setHp s v).playerB.id = b.playerB.id := by cases s <;> rfl

@[simp] theorem Battle.setHp_playerA_maxHp (b : Battle) (s : Side) (v : Int) :
    (b.setHp s v).playerA.maxHp = b.playerA.maxHp := by cases s <;> rfl

@[simp] theorem Battle.setHp_playerB_maxHp (b : Battle) (s : Side) (v : Int) :
    (b.setHp s v).playerB.maxHp = b.playerB.maxHp := by cases s <;> rfl

@[simp] theorem Battle.setHp_playerA_atk (b : Battle) (s : Side) (v : Int) :
    (b.setHp s v).playerA.atk = b.playerA.atk := by cases s <;> rfl

@[simp] theorem Battle.setHp_playerB_atk (b : Battle) (s : Side) (v : Int) :
    (b.setHp s v).playerB.atk = b.playerB.atk := by cases s <;> rfl

@[simp] theorem Battle.checkEnd_playerA (b : Battle) : (b.checkEnd).2.playerA = b.playerA := by
  unfold Battle.checkEnd; split_ifs <;> rfl

@[simp] theorem Battle.checkEnd_playerB (b : Battle) : (b.checkEnd).2.playerB = b.playerB := by
  unfold Battle.checkEnd; split_ifs <;> rfl

@[simp] theorem Battle.checkEnd_turnOrder (b : Battle) : (b.checkEnd).2.turnOrder = b.turnOrder := by
  unfold Battle.checkEnd; split_ifs <;> rfl

@[simp] theorem Battle.checkEnd_round (b : Battle) : (b.checkEnd).2.round = b.round := by
  unfold Battle.checkEnd; split_ifs <;> rfl

@[simp] theorem Battle.checkEnd_actionA (b : Battle) : (b.checkEnd).2.actionA = b.actionA := by
  unfold Battle.checkEnd; split_ifs <;> rfl

@[simp] theorem Battle.checkEnd_actionB (b : Battle) : (b.checkEnd).2.actionB = b.actionB := by
  unfold Battle.checkEnd; split_ifs <;> rfl

theorem Battle.checkEnd_fst_iff (b : Battle) :
    (b.checkEnd).1 = true ↔ (b.playerA.hp ≤ 0 ∨ b.playerB.hp ≤ 0) := by
  unfold Battle.checkEnd; split_ifs <;> simp_all <;> omega

theorem Battle.checkEnd_snd_of_false (b : Battle) (h : (b.checkEnd).1 = false) :
    (b.checkEnd).2 = b := by
  unfold Battle.checkEnd at h ⊢; split_ifs at h ⊢ <;> simp_all

theorem Battle.checkEnd_isFinished_of_true (b : Battle) (h : (b.checkEnd).1 = true) :
    (b.checkEnd).2.isFinished = true := by
  unfold Battle.checkEnd at h ⊢; split_ifs at h ⊢ <;> simp_all

theorem Battle.checkEnd_winner_draw (b : Battle) (h1 : b.playerA.hp ≤ 0)
    (h2 : b.playerB.hp ≤ 0) : (b.checkEnd).2.winnerId = none := by
  unfold Battle.checkEnd; split_ifs <;> simp_all

theorem Battle.checkEnd_winner_B (b : Battle) (h1 : b.playerA.hp ≤ 0)
    (h2 : ¬ b.playerB.hp ≤ 0) : (b.checkEnd).2.winnerId = some b.playerB.id := by
  unfold Battle.checkEnd; split_ifs <;> simp_all

theorem Battle.checkEnd_winner_A (b : Battle) (h1 : ¬ b.playerA.hp ≤ 0)
    (h2 : b.playerB.hp ≤ 0) : (b.checkEnd).2.winnerId = some b.playerA.id := by
  unfold Battle.checkEnd; split_ifs <;> simp_all

@[simp] theorem Battle.writeAction_playerA (b : Battle) (p : String) (x : Option String) :
    (b.writeAction p x).playerA = b.playerA := by
  unfold Battle.writeAction; split_ifs <;> rfl

@[simp] theorem Battle.writeAction_playerB (b : Battle) (p : String) (x : Option String) :
    (b.writeAction p x).playerB = b.playerB := by
  unfold Battle.writeAction; split_ifs <;> rfl

@[simp] theorem Battle.writeAction_turnOrder (b : Battle) (p : String) (x : Option String) :
    (b.writeAction p x).turnOrder = b.turnOrder := by
  unfold Battle.writeAction; split_ifs <;> rfl

@[simp] theorem Battle.writeAction_round (b : Battle) (p : String) (x : Option String) :
    (b.writeAction p x).round = b.round := by
  unfold Battle.writeAction; split_ifs <;> rfl

@[simp] theorem Battle.writeAction_isFinished (b : Battle) (p : String) (x : Option String) :
    (b.writeAction p x).isFinished = b.isFinished := by
  unfold Battle.writeAction; split_ifs <;> rfl

@[simp] theorem Battle.writeAction_winnerId (b : Battle) (p : String) (x : Option String) :
    (b.writeAction p x).winnerId = b.winnerId := by
  unfold Battle.writeAction; split_ifs <;> rfl

theorem Battle.calcDamage_dmg_nonneg (attacker defender : Combatant)
    (da : Option String) (g : RNG) (h : 0 ≤ attacker.atk) :
    0 ≤ (Battle.calcDamage attacker defender da g).1.dmg := by
  simp only [Battle.calcDamage]
  split_ifs <;> simp [le_max_left, h]

theorem Battle.processSingleAction_shape (b : Battle) (s t : Side) (g : RNG) :
    (b.processSingleAction s t g).1 = b ∨
    ∃ d : Int, (0 ≤ (b.player s).atk → 0 ≤ d) ∧
      (b.processSingleAction s t g).1 = b.setHp t (max 0 ((b.player t).hp - d)) := by
  simp only [Battle.processSingleAction]
  split_ifs <;>
    first
      | (left; rfl)
      | (right;
         exact ⟨_, fun h => Battle.calcDamage_dmg_nonneg _ _ _ _ h, rfl⟩)

@[simp] theorem Battle.psa_turnOrder (b : Battle) (s t : Side) (g : RNG) :
    (b.processSingleAction s t g).1.turnOrder = b.turnOrder := by
  rcases Battle.processSingleAction_shape b s t g with h | ⟨d, _, h⟩ <;> rw [h] <;> simp

@[simp] theorem Battle.psa_playerA_id (b : Battle) (s t : Side) (g : RNG) :
    (b.processSingleAction s t g).1.playerA.id = b.playerA.id := by
  rcases Battle.processSingleAction_shape b s t g with h | ⟨d, _, h⟩ <;> rw [h] <;> simp

@[simp] theorem Battle.psa_playerB_id (b : Battle) (s t : Side) (g : RNG) :
    (b.processSingleAction s t g).1.playerB.id = b.playerB.id := by
  rcases Battle.processSingleAction_shape b s t g with h | ⟨d, _, h⟩ <;> rw [h] <;> simp

@[simp] theorem Battle.psa_playerA_maxHp (b : Battle) (s t : Side) (g : RNG) :
    (b.processSingleAction s t g).1.playerA.maxHp = b.playerA.maxHp := by
  rcases Battle.processSingleAction_shape b s t g with h | ⟨d, _, h⟩ <;> rw [h] <;> simp

@[simp] theorem Battle.psa_playerB_maxHp (b : Battle) (s t : Side) (g : RNG) :
    (b.processSingleAction s t g).1.playerB.maxHp = b.playerB.maxHp := by
  rcases Battle.processSingleAction_shape b s t g with h | ⟨d, _, h⟩ <;> rw [h] <;> simp

@[simp] theorem Battle.psa_playerA_atk (b : Battle) (s t : Side) (g : RNG) :
    (b.processSingleAction s t g).1.playerA.atk = b.playerA.atk := by
  rcases Battle.processSingleAction_shape b s t g with h | ⟨d, _, h⟩ <;> rw [h] <;> simp

@[simp] theorem Battle.psa_playerB_atk (b : Battle) (s t : Side) (g : RNG) :
    (b.processSingleAction s t g).1.playerB.atk = b.playerB.atk := by
  rcases Battle.processSingleAction_shape b s t g with h | ⟨d, _, h⟩ <;> rw [h] <;> simp

@[simp] theorem Battle.psa_round (b : Battle) (s t : Side) (g : RNG) :
    (b.processSingleAction s t g).1.round = b.round := by
  rcases Battle.processSingleAction_shape b s t g with h | ⟨d, _, h⟩ <;> rw [h] <;> simp

@[simp] theorem Battle.psa_isFinished (b : Battle) (s t : Side) (g : RNG) :
    (b.processSingleAction s t g).1.isFinished = b.isFinished := by
  rcases Battle.processSingleAction_shape b s t g with h | ⟨d, _, h⟩ <;> rw [h] <;> simp

@[simp] theorem Battle.psa_actionA (b : Battle) (s t : Side) (g : RNG) :
    (b.processSingleAction s t g).1.actionA = b.actionA := by
  rcases Battle.processSingleAction_shape b s t g with h | ⟨d, _, h⟩ <;> rw [h] <;> simp

@[simp] theorem Battle.psa_actionB (b : Battle) (s t : Side) (g : RNG) :
    (b.processSingleAction s t g).1.actionB = b.actionB := by
  rcases Battle.processSingleAction_shape b s t g with h | ⟨d, _, h⟩ <;> rw [h] <;> simp

theorem Battle.psa_atkOk (b : Battle) (s t : Side) (g : RNG) (h : b.AtkOk) :
    ((b.processSingleAction s t g).1).AtkOk := by
  unfold Battle.AtkOk at h ⊢
  simpa using h

theorem Battle.checkEnd_atkOk (b : Battle) (h : b.AtkOk) : ((b.checkEnd).2).AtkOk := by
  unfold Battle.AtkOk at h ⊢
  simpa using h

theorem Battle.checkEnd_hpInv (b : Battle) (h : b.HpInv) : ((b.checkEnd).2).HpInv := by
  unfold Battle.HpInv at h ⊢
  simpa using h

theorem Battle.psa_hpInv (b : Battle) (s t : Side) (g : RNG) (ha : b.AtkOk)
    (hi : b.HpInv) : ((b.processSingleAction s t g).1).HpInv := by
  rcases Battle.processSingleAction_shape b s t g with h | ⟨d, hd, h⟩
  · rwa [h]
  · have hd' : 0 ≤ d := by
      apply hd
      cases s
      · exact ha.1
      · exact ha.2
    rw [h]
    obtain ⟨h1, h2, h3, h4⟩ := hi
    cases t <;> unfold Battle.HpInv Battle.setHp <;>
      refine ⟨?_, ?_, ?_, ?_⟩ <;> simp <;>
      first
        | exact le_max_left 0 _
        | (constructor <;> linarith)
        | linarith
        | assumption

theorem Battle.resolveRound_hpInv (b : Battle) (g : RNG) (ha : b.AtkOk)
    (hi : b.HpInv) : ((b.resolveRound g).1).HpInv := by
  have h1 : ((b.processSingleAction b.turnOrder.1 b.turnOrder.2 g).1).HpInv :=
    Battle.psa_hpInv b b.turnOrder.1 b.turnOrder.2 g ha hi
  have h1a : ((b.processSingleAction b.turnOrder.1 b.turnOrder.2 g).1).AtkOk :=
    Battle.psa_atkOk b b.turnOrder.1 b.turnOrder.2 g ha
  simp only [Battle.resolveRound]
  split_ifs with e1 e2 e2 <;>
    first
      | (apply Battle.checkEnd_hpInv
         exact Battle.checkEnd_hpInv _ h1)
      | (have hh := Battle.checkEnd_hpInv _ (Battle.checkEnd_hpInv _ h1)
         unfold Battle.HpInv at hh ⊢
         simpa using hh)
      | (apply Battle.checkEnd_hpInv
         exact Battle.psa_hpInv _ _ _ _ (Battle.checkEnd_atkOk _ h1a) (Battle.checkEnd_hpInv _ h1))
      | (have hh := Battle.checkEnd_hpInv _
          (Battle.psa_hpInv _ _ _ _ (Battle.checkEnd_atkOk _ h1a) (Battle.checkEnd_hpInv _ h1))
         unfold Battle.HpInv at hh ⊢
         simpa using hh)

@[simp] theorem Battle.rr_turnOrder (b : Battle) (g : RNG) :
    ((b.resolveRound g).1).turnOrder = b.turnOrder := by
  simp only [Battle.resolveRound]
  split_ifs <;> simp

@[simp] theorem Battle.rr_playerA_id (b : Battle) (g : RNG) :
    ((b.resolveRound g).1).playerA.id = b.playerA.id := by
  simp only [Battle.resolveRound]
  split_ifs <;> simp

@[simp] theorem Battle.rr_playerB_id (b : Battle) (g : RNG) :
    ((b.resolveRound g).1).playerB.id = b.playerB.id := by
  simp only [Battle.resolveRound]
  split_ifs <;> simp

@[simp] theorem Battle.rr_playerA_maxHp (b : Battle) (g : RNG) :
    ((b.resolveRound g).1).playerA.maxHp = b.playerA.maxHp := by
  simp only [Battle.resolveRound]
  split_ifs <;> simp

@[simp] theorem Battle.rr_playerB_maxHp (b : Battle) (g : RNG) :
    ((b.resolveRound g).1).playerB.maxHp = b.playerB.maxHp := by
  simp only [Battle.resolveRound]
  split_ifs <;> simp

@[simp] theorem Battle.rr_playerA_atk (b : Battle) (g : RNG) :
    ((b.resolveRound g).1).playerA.atk = b.playerA.atk := by
  simp only [Battle.resolveRound]
  split_ifs <;> simp

@[simp] theorem Battle.rr_playerB_atk (b : Battle) (g : RNG) :
    ((b.resolveRound g).1).playerB.atk = b.playerB.atk := by
  simp only [Battle.resolveRound]
  split_ifs <;> simp

@[simp] theorem Battle.setAction_playerA_id (b : Battle) (p a : String) (g : RNG) :
    ((b.setAction p a g).2.1).playerA.id = b.playerA.id := by
  simp only [Battle.setAction]
  split_ifs <;> simp

@[simp] theorem Battle.setAction_playerB_id (b : Battle) (p a : String) (g : RNG) :
    ((b.setAction p a g).2.1).playerB.id = b.playerB.id := by
  simp only [Battle.setAction]
  split_ifs <;> simp

@[simp] theorem Battle.setAction_turnOrder (b : Battle) (p a : String) (g : RNG) :
    ((b.setAction p a g).2.1).turnOrder = b.turnOrder := by
  simp only [Battle.setAction]
  split_ifs <;> simp

theorem Battle.writeAction_atkOk (b : Battle) (p : String) (x : Option String)
    (h : b.AtkOk) : ((b.writeAction p x)).AtkOk := by
  unfold Battle.AtkOk at h ⊢
  simpa using h

theorem Battle.writeAction_hpInv (b : Battle) (p : String) (x : Option String)
    (h : b.HpInv) : ((b.writeAction p x)).HpInv := by
  unfold Battle.HpInv at h ⊢
  simpa using h

theorem Battle.setAction_hpInv (b : Battle) (p a : String) (g : RNG)
    (ha : b.AtkOk) (hi : b.HpInv) : ((b.setAction p a g).2.1).HpInv := by
  simp only [Battle.setAction]
  split_ifs <;>
    first
      | exact hi
      | exact Battle.writeAction_hpInv b p (some a) hi
      | exact Battle.resolveRound_hpInv _ _ (Battle.writeAction_atkOk b p (some a) ha)
          (Battle.writeAction_hpInv b p (some a) hi)

@[simp] theorem Battle.create_playerA (a b : Combatant) (g : RNG) :
    (Battle.create a b g).1.playerA = a := by simp [Battle.create]

@[simp] theorem Battle.create_playerB (a b : Combatant) (g : RNG) :
    (Battle.create a b g).1.playerB = b := by simp [Battle.create]

@[simp] theorem Battle.create_isFinished (a b : Combatant) (g : RNG) :
    (Battle.create a b g).1.isFinished = false := by simp [Battle.create]

@[simp] theorem Battle.create_actionA (a b : Combatant) (g : RNG) :
    (Battle.create a b g).1.actionA = none := by simp [Battle.create]

@[simp] theorem Battle.create_actionB (a b : Combatant) (g : RNG) :
    (Battle.create a b g).1.actionB = none := by simp [Battle.create]

@[simp] theorem Battle.create_round (a b : Combatant) (g : RNG) :
    (Battle.create a b g).1.round = 1 := by simp [Battle.create]

@[simp] theorem Battle.create_turnOrder (a b : Combatant) (g : RNG) :
    (Battle.create a b g).1.turnOrder = (Battle.decideOrder a b g).1 := by
  simp [Battle.create]

theorem BattleManager.inv_empty : BattleManager.Inv BattleManager.empty := by
  constructor
  · intro acct bid h
    simp [BattleManager.empty] at h
  · intro bid bt h
    simp [BattleManager.empty] at h

theorem BattleManager.startBattle_inv (m : BattleManager) (cA cB : Combatant)
    (g : RNG) (hInv : m.Inv) (hne : cA.id ≠ cB.id) :
    ((m.startBattle cA cB g).2.1).Inv := by
  obtain ⟨inv1, inv2⟩ := hInv
  simp only [BattleManager.startBattle]
  split_ifs with hkey hbusy
  · exact ⟨inv1, inv2⟩
  · exact ⟨inv1, inv2⟩
  · rw [Option.isSome_iff_exists] at hkey
    push_neg at hkey
    have hkey' : m.battlesById (makeBattleId cA.id cB.id) = none := by
      cases h : m.battlesById (makeBattleId cA.id cB.id)
      · rfl
      · exact absurd h (hkey _)
    rw [Bool.or_eq_true, Option.isSome_iff_exists, Option.isSome_iff_exists] at hbusy
    push_neg at hbusy
    have hA' : m.battleIdByPlayer cA.id = none := by
      cases h : m.battleIdByPlayer cA.id
      · rfl
      · exact absurd h (hbusy.1 _)
    have hB' : m.battleIdByPlayer cB.id = none := by
      cases h : m.battleIdByPlayer cB.id
      · rfl
      · exact absurd h (hbusy.2 _)
    constructor
    · intro acct bid hacct
      simp only [mapInsert] at hacct
      by_cases h1 : acct = cB.id
      · rw [if_pos h1] at hacct
        have hbid := Option.some.inj hacct
        subst hbid
        exact ⟨(Battle.create cA cB g).1, by simp [mapInsert], Or.inr (by simp [h1])⟩
      · rw [if_neg h1] at hacct
        by_cases h2 : acct = cA.id
        · rw [if_pos h2] at hacct
          have hbid := Option.some.inj hacct
          subst hbid
          exact ⟨(Battle.create cA cB g).1, by simp [mapInsert], Or.inl (by simp [h2])⟩
        · rw [if_neg h2] at hacct
          obtain ⟨bt, hbt, hpart⟩ := inv1 acct bid hacct
          have hbidne : bid ≠ makeBattleId cA.id cB.id := by
            intro he
            rw [he, hkey'] at hbt
            exact Option.noConfusion hbt
          exact ⟨bt, by simp [mapInsert, hbidne, hbt], hpart⟩
    · intro bid bt hbt
      simp only [mapInsert] at hbt
      by_cases hb : bid = makeBattleId cA.id cB.id
      · rw [if_pos hb] at hbt
        have hbt' : bt = (Battle.create cA cB g).1 := (Option.some.inj hbt).symm
        subst hbt'
        subst hb
        refine ⟨by simp, by simpa using hne, by simp, ?_, ?_⟩
        · simp [mapInsert, hne]
        · simp [mapInsert]
      · rw [if_neg hb] at hbt
        obtain ⟨hfin, hids, hmk, hpa, hpb⟩ := inv2 bid bt hbt
        have hpa' : bt.playerA.id ≠ cA.id := by
          intro he
          rw [he, hA'] at hpa
          exact Option.noConfusion hpa
        have hpa'' : bt.playerA.id ≠ cB.id := by
          intro he
          rw [he, hB'] at hpa
          exact Option.noConfusion hpa
        have hpb' : bt.playerB.id ≠ cA.id := by
          intro he
          rw [he, hA'] at hpb
          exact Option.noConfusion hpb
        have hpb'' : bt.playerB.id ≠ cB.id := by
          intro he
          rw [he, hB'] at hpb
          exact Option.noConfusion hpb
        exact ⟨hfin, hids, hmk,
          by simp [mapInsert, hpa', hpa'', hpa],
          by simp [mapInsert, hpb', hpb'', hpb]⟩

theorem BattleManager.findBattle_decomp (m : BattleManager) (p : String)
    (battle : Battle) (hfb : m.findBattleForPlayer p = some battle) :
    ∃ bid, m.battleIdByPlayer p = some bid ∧ m.battlesById bid = some battle := by
  unfold BattleManager.findBattleForPlayer at hfb
  cases h : m.battleIdByPlayer p with
  | none => rw [h] at hfb; exact Option.noConfusion hfb
  | some bid => rw [h] at hfb; exact ⟨bid, rfl, hfb⟩

theorem BattleManager.submitAction_inv (m : BattleManager) (p a : String) (g : RNG)
    (hInv : m.Inv) : ((m.submitAction p a g).2.1).Inv := by
  obtain ⟨inv1, inv2⟩ := hInv
  cases hfb : m.findBattleForPlayer p with
  | none =>
    simp only [BattleManager.submitAction, hfb]
    exact ⟨inv1, inv2⟩
  | some battle =>
    obtain ⟨bid, hbid, hbt⟩ := BattleManager.findBattle_decomp m p battle hfb
    obtain ⟨hfin, hids, hmk, hpa, hpb⟩ := inv2 bid battle hbt
    have hidA : ((battle.setAction p a g).2.1).playerA.id = battle.playerA.id :=
      Battle.setAction_playerA_id battle p a g
    have hidB : ((battle.setAction p a g).2.1).playerB.id = battle.playerB.id :=
      Battle.setAction_playerB_id battle p a g
    simp only [BattleManager.submitAction, hfb, hbid]
    by_cases hf : ((battle.setAction p a g).2.1).isFinished = true
    · rw [if_pos hf]
      constructor
      · intro acct bid0 hacct
        simp only [mapDelete] at hacct
        by_cases hB : acct = ((battle.setAction p a g).2.1).playerB.id
        · rw [if_pos hB] at hacct
          exact Option.noConfusion hacct
        · rw [if_neg hB] at hacct
          by_cases hA : acct = ((battle.setAction p a g).2.1).playerA.id
          · rw [if_pos hA] at hacct
            exact Option.noConfusion hacct
          · rw [if_neg hA] at hacct
            obtain ⟨bt0, hbt0, hpart0⟩ := inv1 acct bid0 hacct
            have hbne : bid0 ≠ bid := by
              intro he
              subst he
              rw [hbt0] at hbt
              have hbteq : bt0 = battle := Option.some.inj hbt
              rw [hbteq] at hpart0
              rcases hpart0 with h | h
              · exact hA (by rw [hidA]; exact h)
              · exact hB (by rw [hidB]; exact h)
            exact ⟨bt0, by simp [mapDelete, mapInsert, hbne, hbt0], hpart0⟩
      · intro bid0 bt0 hbt0
        simp only [mapDelete, mapInsert] at hbt0
        by_cases hbe : bid0 = bid
        · rw [if_pos hbe] at hbt0
          exact Option.noConfusion hbt0
        · rw [if_neg hbe, if_neg hbe] at hbt0
          obtain ⟨hfin0, hids0, hmk0, hpa0, hpb0⟩ := inv2 bid0 bt0 hbt0
          have hne1 : bt0.playerA.id ≠ battle.playerA.id := by
            intro he
            rw [he, hpa] at hpa0
            exact hbe (Option.some.inj hpa0).symm
          have hne2 : bt0.playerA.id ≠ battle.playerB.id := by
            intro he
            rw [he, hpb] at hpa0
            exact hbe (Option.some.inj hpa0).symm
          have hne3 : bt0.playerB.id ≠ battle.playerA.id := by
            intro he
            rw [he, hpa] at hpb0
            exact hbe (Option.some.inj hpb0).symm
          have hne4 : bt0.playerB.id ≠ battle.playerB.id := by
            intro he
            rw [he, hpb] at hpb0
            exact hbe (Option.some.inj hpb0).symm
          exact ⟨hfin0, hids0, hmk0,
            by simp [mapDelete, hne1, hne2, hpa0],
            by simp [mapDelete, hne3, hne4, hpb0]⟩
    · rw [if_neg hf]
      constructor
      · intro acct bid0 hacct
        obtain ⟨bt0, hbt0, hpart0⟩ := inv1 acct bid0 hacct
        by_cases hbe : bid0 = bid
        · subst hbe
          rw [hbt0] at hbt
          have hbteq : bt0 = battle := Option.some.inj hbt
          refine ⟨(battle.setAction p a g).2.1, by simp [mapInsert], ?_⟩
          rw [hidA, hidB, ← hbteq]
          exact hpart0
        · exact ⟨bt0, by simp [mapInsert, hbe, hbt0], hpart0⟩
      · intro bid0 bt0 hbt0
        simp only [mapInsert] at hbt0
        by_cases hbe : bid0 = bid
        · rw [if_pos hbe] at hbt0
          have hbteq : bt0 = (battle.setAction p a g).2.1 := (Option.some.inj hbt0).symm
          subst hbteq
          subst hbe
          refine ⟨by simpa using hf, ?_, ?_, ?_, ?_⟩
          · rw [hidA, hidB]
            exact hids
          · rw [hidA, hidB]
            exact hmk
          · rw [hidA]
            exact hpa
          · rw [hidB]
            exact hpb
        · rw [if_neg hbe] at hbt0
          exact inv2 bid0 bt0 hbt0

theorem BattleManager.submitAction_cleanup (m : BattleManager) (p a : String)
    (g : RNG) (hInv : m.Inv) (battle : Battle)
    (hfb : m.findBattleForPlayer p = some battle)
    (hf : ((battle.setAction p a g).2.1).isFinished = true) :
    ((m.submitAction p a g).2.1).battleIdByPlayer battle.playerA.id = none ∧
    ((m.submitAction p a g).2.1).battleIdByPlayer battle.playerB.id = none ∧
    ((m.submitAction p a g).2.1).battlesById
      (makeBattleId battle.playerA.id battle.playerB.id) = none ∧
    ∀ g2 : RNG,
      (((m.submitAction p a g).2.1).startBattle battle.playerA battle.playerB g2).1.ok
        = true := by
  obtain ⟨bid, hbid, hbt⟩ := BattleManager.findBattle_decomp m p battle hfb
  obtain ⟨inv1, inv2⟩ := hInv
  obtain ⟨hfin, hids, hmk, hpa, hpb⟩ := inv2 bid battle hbt
  have e1 : ((m.submitAction p a g).2.1).battleIdByPlayer battle.playerA.id = none := by
    simp only [BattleManager.submitAction, hfb, hbid]
    rw [if_pos hf]
    simp [mapDelete, hids]
  have e2 : ((m.submitAction p a g).2.1).battleIdByPlayer battle.playerB.id = none := by
    simp only [BattleManager.submitAction, hfb, hbid]
    rw [if_pos hf]
    simp [mapDelete]
  have e3 : ((m.submitAction p a g).2.1).battlesById
      (makeBattleId battle.playerA.id battle.playerB.id) = none := by
    simp only [BattleManager.submitAction, hfb, hbid]
    rw [if_pos hf, ← hmk]
    simp [mapDelete]
  refine ⟨e1, e2, e3, ?_⟩
  intro g2
  simp only [BattleManager.startBattle, e1, e2, e3]
  simp

theorem Battle.resolveRound_of_end1 (b : Battle) (g : RNG)
    (he1 : ((b.processSingleAction b.turnOrder.1 b.turnOrder.2 g).1.checkEnd).1 = true) :
    b.resolveRound g =
      ((((b.processSingleAction b.turnOrder.1 b.turnOrder.2 g).1.checkEnd).2.checkEnd).2,
       (b.processSingleAction b.turnOrder.1 b.turnOrder.2 g).2) := by
  have he2 :
      ((((b.processSingleAction b.turnOrder.1 b.turnOrder.2 g).1.checkEnd).2).checkEnd).1
        = true := by
    rw [Battle.checkEnd_fst_iff] at he1 ⊢
    simpa using he1
  simp only [Battle.resolveRound, he1, he2, if_true]

theorem Battle.resolveRound_of_end2 (b : Battle) (g : RNG)
    (he1 : ((b.processSingleAction b.turnOrder.1 b.turnOrder.2 g).1.checkEnd).1 = false)
    (he2 : (((b.processSingleAction b.turnOrder.1 b.turnOrder.2 g).1.processSingleAction
        b.turnOrder.2 b.turnOrder.1
        (b.processSingleAction b.turnOrder.1 b.turnOrder.2 g).2).1.checkEnd).1 = true) :
    b.resolveRound g =
      ((((b.processSingleAction b.turnOrder.1 b.turnOrder.2 g).1.processSingleAction
          b.turnOrder.2 b.turnOrder.1
          (b.processSingleAction b.turnOrder.1 b.turnOrder.2 g).2).1.checkEnd).2,
       ((b.processSingleAction b.turnOrder.1 b.turnOrder.2 g).1.processSingleAction
          b.turnOrder.2 b.turnOrder.1
          (b.processSingleAction b.turnOrder.1 b.turnOrder.2 g).2).2) := by
  have hsnd := Battle.checkEnd_snd_of_false
    (b.processSingleAction b.turnOrder.1 b.turnOrder.2 g).1 he1
  simp only [Battle.resolveRound, he1, Bool.false_eq_true, if_false, hsnd, he2, if_true]

theorem Battle.resolveRound_of_no_end (b : Battle) (g : RNG)
    (he1 : ((b.processSingleAction b.turnOrder.1 b.turnOrder.2 g).1.checkEnd).1 = false)
    (he2 : (((b.processSingleAction b.turnOrder.1 b.turnOrder.2 g).1.processSingleAction
        b.turnOrder.2 b.turnOrder.1
        (b.processSingleAction b.turnOrder.1 b.turnOrder.2 g).2).1.checkEnd).1 = false) :
    b.resolveRound g =
      ({ ((b.processSingleAction b.turnOrder.1 b.turnOrder.2 g).1.processSingleAction
            b.turnOrder.2 b.turnOrder.1
            (b.processSingleAction b.turnOrder.1 b.turnOrder.2 g).2).1 with
          round := ((b.processSingleAction b.turnOrder.1 b.turnOrder.2 g).1.processSingleAction
            b.turnOrder.2 b.turnOrder.1
            (b.processSingleAction b.turnOrder.1 b.turnOrder.2 g).2).1.round + 1,
          actionA := none, actionB := none },
       ((b.processSingleAction b.turnOrder.1 b.turnOrder.2 g).1.processSingleAction
          b.turnOrder.2 b.turnOrder.1
          (b.processSingleAction b.turnOrder.1 b.turnOrder.2 g).2).2) := by
  have hsnd := Battle.checkEnd_snd_of_false
    (b.processSingleAction b.turnOrder.1 b.turnOrder.2 g).1 he1
  have hsnd2 := Battle.checkEnd_snd_of_false
    ((b.processSingleAction b.turnOrder.1 b.turnOrder.2 g).1.processSingleAction
      b.turnOrder.2 b.turnOrder.1
      (b.processSingleAction b.turnOrder.1 b.turnOrder.2 g).2).1 he2
  simp only [Battle.resolveRound, he1, Bool.false_eq_true, if_false, hsnd, he2, hsnd2]

/-- C1: for every attack that hits, `calcDamage` follows a fixed
priority: a crit draw below `attacker.crit` yields
`floor(atk * 1.5)` (for a non-negative attack stat), returns after
that single draw, and so bypasses any Defend declaration; otherwise a
declared Defend whose success draw passes yields `max(0, atk - def)`;
otherwise (defend failed or no Defend declared) the damage is the
full `atk`. -/
theorem calcDamage_priority (attacker defender : Combatant) (da : Option String)
    (g : RNG) (hatk : 0 ≤ attacker.atk) :
    (g.draws g.idx < attacker.crit →
      (Battle.calcDamage attacker defender da g).1.dmg
          = Int.floor ((attacker.atk : ℚ) * (3 / 2)) ∧
      (Battle.calcDamage attacker defender da g).1.crit = true ∧
      (Battle.calcDamage attacker defender da g).2.idx = g.idx + 1) ∧
    (¬ g.draws g.idx < attacker.crit → da = some ACTION.DEFEND →
      g.draws (g.idx + 1)
          < max (5 / 100) (min (60 / 100) ((defender.def_ : ℚ) / 100)) →
      (Battle.calcDamage attacker defender da g).1.dmg
          = max 0 (attacker.atk - defender.def_)) ∧
    (¬ g.draws g.idx < attacker.crit → da = some ACTION.DEFEND →
      ¬ g.draws (g.idx + 1)
          < max (5 / 100) (min (60 / 100) ((defender.def_ : ℚ) / 100)) →
      (Battle.calcDamage attacker defender da g).1.dmg = attacker.atk) ∧
    (¬ g.draws g.idx < attacker.crit → ¬ da = some ACTION.DEFEND →
      (Battle.calcDamage attacker defender da g).1.dmg = attacker.atk) := by
  have hfl : 0 ≤ Int.floor ((attacker.atk : ℚ) * (3 / 2)) := by
    apply Int.floor_nonneg.mpr
    apply mul_nonneg
    · exact_mod_cast hatk
    · norm_num
  refine ⟨?_, ?_, ?_, ?_⟩
  · intro h1
    simp [Battle.calcDamage, RNG.next, h1, max_eq_right hfl]
  · intro h1 h2 h3
    simp [Battle.calcDamage, Battle.tryDefend, RNG.next, h1, h2, h3]
  · intro h1 h2 h3
    simp [Battle.calcDamage, Battle.tryDefend, RNG.next, h1, h2, h3]
  · intro h1 h2
    simp [Battle.calcDamage, Battle.tryDefend, RNG.next, h1, h2]

/-- C1 witness: `sawa` (atk 20, crit 0.10) crits against a declared
Defend on the draw 0 and deals `floor(20 * 1.5) = 30`. -/
theorem calcDamage_priority_witness :
    0 ≤ sawa.atk ∧
    (constRNG 0).draws (constRNG 0).idx < sawa.crit ∧
    (Battle.calcDamage sawa sawa2 (some ACTION.DEFEND) (constRNG 0)).1.dmg
      = Int.floor ((sawa.atk : ℚ) * (3 / 2)) := by
  refine ⟨by decide, by decide, ?_⟩
  exact ((calcDamage_priority sawa sawa2 (some ACTION.DEFEND) (constRNG 0)
    (by decide)).1 (by decide)).1

/-- C3: `makeBattleId` is symmetric in the unordered pair (so
`startBattle(A,B)` and `startBattle(B,A)` derive the same key), and a
`startBattle` for a pair whose key already maps to a live battle
fails with `ok = false` and leaves the registry and the draw stream
untouched. -/
theorem startBattle_unordered_pair (m : BattleManager) (cA cB : Combatant)
    (g : RNG) (a b : String) :
    makeBattleId a b = makeBattleId b a ∧
    (m.startBattle cA cB g).1.battleId = (m.startBattle cB cA g).1.battleId ∧
    ((m.battlesById (makeBattleId cA.id cB.id)).isSome = true →
      (m.startBattle cA cB g).1.ok = false ∧
      (m.startBattle cA cB g).2.1 = m ∧
      (m.startBattle cA cB g).2.2 = g) := by
  refine ⟨makeBattleId_comm a b, ?_, ?_⟩
  · simp only [BattleManager.startBattle]
    split_ifs <;> simp [makeBattleId_comm]
  · intro h
    simp only [BattleManager.startBattle]
    rw [if_pos h]
    exact ⟨rfl, rfl, rfl⟩

/-- C3 witness: in a registry whose key already maps to a battle,
`startBattle` is rejected without touching the registry. -/
theorem startBattle_unordered_pair_witness :
    makeBattleId "a" "b" = makeBattleId "b" "a" ∧
    (occupiedManager.battlesById (makeBattleId fighterA.id fighterB.id)).isSome = true ∧
    (occupiedManager.startBattle fighterA fighterB (constRNG 0)).1.ok = false ∧
    (occupiedManager.startBattle fighterA fighterB (constRNG 0)).2.1 = occupiedManager := by
  have h := startBattle_unordered_pair occupiedManager fighterA fighterB (constRNG 0) "a" "b"
  exact ⟨h.1, rfl, (h.2.2 rfl).1, (h.2.2 rfl).2.1⟩

/-- C4: every rejected `setAction` is a no-op: a finished battle, a
non-participant caller, or an action outside
{attack, defend, evade} each produce a rejection result and return
the battle (hp, action slots, round, finished flag) and the draw
stream completely unchanged; in particular once finished every
subsequent submission is rejected without mutation. -/
theorem setAction_rejections_noop (b : Battle) (p a : String) (g : RNG) :
    (b.isFinished = true →
      b.setAction p a g =
        ({ done := true, message := "이미 끝난 전투야." }, b, g)) ∧
    (b.isFinished = false → ¬ (p = b.playerA.id ∨ p = b.playerB.id) →
      b.setAction p a g =
        ({ done := false, message := "너는 이 전투 참가자가 아니야." }, b, g)) ∧
    (b.isFinished = false → (p = b.playerA.id ∨ p = b.playerB.id) →
      ¬ (a = ACTION.ATTACK ∨ a = ACTION.DEFEND ∨ a = ACTION.EVADE) →
      b.setAction p a g =
        ({ done := false, message := "가능한 행동: 공격/방어/회피" }, b, g)) := by
  refine ⟨?_, ?_, ?_⟩
  · intro h
    simp [Battle.setAction, h]
  · intro h hm
    simp [Battle.setAction, h, hm]
  · intro h hm hv
    simp [Battle.setAction, h, hm, hv]

/-- C4 witness: a finished battle rejects an attack submission without
any mutation, and a live battle rejects a non-participant and an
invalid action without any mutation. -/
theorem setAction_rejections_noop_witness :
    (finishedBattle.isFinished = true ∧
      finishedBattle.setAction "a" "attack" (constRNG 0)
        = ({ done := true, message := "이미 끝난 전투야." }, finishedBattle, constRNG 0)) ∧
    (createdBattle.isFinished = false ∧
      ¬ ("zoe" = createdBattle.playerA.id ∨ "zoe" = createdBattle.playerB.id) ∧
      createdBattle.setAction "zoe" "attack" (constRNG 0)
        = ({ done := false, message := "너는 이 전투 참가자가 아니야." }, createdBattle, constRNG 0)) ∧
    (¬ ("jump" = ACTION.ATTACK ∨ "jump" = ACTION.DEFEND ∨ "jump" = ACTION.EVADE) ∧
      createdBattle.setAction "a" "jump" (constRNG 0)
        = ({ done := false, message := "가능한 행동: 공격/방어/회피" }, createdBattle, constRNG 0)) := by
  refine ⟨⟨by decide, ?_⟩, ⟨by decide, by decide, ?_⟩, ⟨by decide, ?_⟩⟩
  · exact (setAction_rejections_noop finishedBattle "a" "attack" (constRNG 0)).1 (by decide)
  · exact (setAction_rejections_noop createdBattle "zoe" "attack" (constRNG 0)).2.1
      (by decide) (by decide)
  · exact (setAction_rejections_noop createdBattle "a" "jump" (constRNG 0)).2.2
      (by decide) (by decide) (by decide)

/-- C6: the turn order is computed exactly once at creation: the
higher-speed combatant goes first, a speed tie is broken by one
`< 0.5` coin-flip draw, the result is stored in `turnOrder`, and no
action submission (and hence no round) ever changes it. -/
theorem turn_order_fixed (a b : Combatant) (bt : Battle) (p act : String)
    (g g2 : RNG) :
    (a.speed > b.speed → Battle.decideOrder a b g = ((Side.A, Side.B), g)) ∧
    (b.speed > a.speed → Battle.decideOrder a b g = ((Side.B, Side.A), g)) ∧
    (a.speed = b.speed →
      (g.draws g.idx < (1 : ℚ) / 2 →
        Battle.decideOrder a b g = ((Side.A, Side.B), { g with idx := g.idx + 1 })) ∧
      (¬ g.draws g.idx < (1 : ℚ) / 2 →
        Battle.decideOrder a b g = ((Side.B, Side.A), { g with idx := g.idx + 1 }))) ∧
    ((Battle.create a b g).1.turnOrder = (Battle.decideOrder a b g).1) ∧
    ((bt.setAction p act g2).2.1).turnOrder = bt.turnOrder := by
  refine ⟨?_, ?_, ?_, Battle.create_turnOrder a b g, Battle.setAction_turnOrder bt p act g2⟩
  · intro h
    simp [Battle.decideOrder, h]
  · intro h
    have h' : ¬ a.speed > b.speed := lt_asymm h
    simp [Battle.decideOrder, h', h]
  · intro h
    have h1 : ¬ a.speed > b.speed := by simp [h]
    have h2 : ¬ b.speed > a.speed := by simp [h]
    constructor <;> intro hd <;>
      (simp [Battle.decideOrder, h1, h2, RNG.next, hd]; linarith)

/-- C6 witness: with speeds 2 vs 1 the order is `fighterA` first with
no draw consumed, and a later submission leaves `turnOrder` as is. -/
theorem turn_order_fixed_witness :
    fighterA.speed > fighterB.speed ∧
    Battle.decideOrder fighterA fighterB (constRNG 0) = ((Side.A, Side.B), constRNG 0) ∧
    ((bothReady.setAction "a" ACTION.DEFEND rngHalf).2.1).turnOrder = bothReady.turnOrder := by
  have h := turn_order_fixed fighterA fighterB bothReady "a" ACTION.DEFEND (constRNG 0) rngHalf
  exact ⟨by decide, h.1 (by decide), h.2.2.2.2⟩

/-- C7: while the opponent's slot is empty, a valid submission only
overwrites the caller's own pending slot and returns the waiting
result: no hp change, no round advance, no draw consumed; once the
opponent's slot is set, the same call resolves (`done = true`), so a
round resolves exactly when both actions are set. -/
theorem submit_overwrite_waits (b : Battle) (a : String) (g : RNG)
    (hne : b.playerA.id ≠ b.playerB.id)
    (hf : b.isFinished = false)
    (hv : a = ACTION.ATTACK ∨ a = ACTION.DEFEND ∨ a = ACTION.EVADE) :
    (b.actionB = none →
      b.setAction b.playerA.id a g =
        ({ done := false, message := "행동 선택 완료. 상대를 기다리는 중..." },
         { b with actionA := some a }, g)) ∧
    (b.actionA = none →
      b.setAction b.playerB.id a g =
        ({ done := false, message := "행동 선택 완료. 상대를 기다리는 중..." },
         { b with actionB := some a }, g)) ∧
    (b.actionB.isSome = true → (b.setAction b.playerA.id a g).1.done = true) ∧
    (b.actionA.isSome = true → (b.setAction b.playerB.id a g).1.done = true) := by
  refine ⟨?_, ?_, ?_, ?_⟩ <;>
    · intro hslot
      rcases hv with hv | hv | hv <;> subst hv <;>
        simp [Battle.setAction, hf, Battle.writeAction, Battle.isReady, hslot,
          Battle.getOpponent, Battle.readAction, hne, Ne.symm hne,
          ACTION.ATTACK, ACTION.DEFEND, ACTION.EVADE]

/-- C7 witness: with the opponent slot empty the submission overwrites
and waits; with both slots set the submission resolves. -/
theorem submit_overwrite_waits_witness :
    createdBattle.playerA.id ≠ createdBattle.playerB.id ∧
    createdBattle.isFinished = false ∧
    createdBattle.actionB = none ∧
    createdBattle.setAction createdBattle.playerA.id ACTION.ATTACK rngHalf
      = ({ done := false, message := "행동 선택 완료. 상대를 기다리는 중..." },
         { createdBattle with actionA := some ACTION.ATTACK }, rngHalf) ∧
    bothReady.actionB.isSome = true ∧
    (bothReady.setAction bothReady.playerA.id ACTION.ATTACK rngHalf).1.done = true := by
  refine ⟨by decide, by decide, by decide, ?_, by decide, ?_⟩
  · exact (submit_overwrite_waits createdBattle ACTION.ATTACK rngHalf
      (by decide) (by decide) (Or.inl rfl)).1 (by decide)
  · exact (submit_overwrite_waits bothReady ACTION.ATTACK rngHalf
      (by decide) (by decide) (Or.inl rfl)).2.2.1 (by decide)

/-- C8: when an Attack meets a defender who declared Evade and the
evade draw succeeds, the attack is negated completely: the battle
state (in particular the defender's hp) is exactly unchanged and only
the single evade draw is consumed — no hit roll and no damage
computation happen. -/
theorem evade_negates_attack (b : Battle) (s t : Side) (g : RNG)
    (hatk : b.actionOf s = some ACTION.ATTACK)
    (hev : b.actionOf t = some ACTION.EVADE)
    (hdraw : g.draws g.idx
      < max (5 / 100) (min (60 / 100) (((b.player t).agi : ℚ) / 100))) :
    b.processSingleAction s t g = (b, { g with idx := g.idx + 1 }) := by
  simp [Battle.processSingleAction, hatk, hev, Battle.tryEvade, RNG.next, hdraw,
    ACTION.ATTACK, ACTION.DEFEND, ACTION.EVADE]

/-- C8 witness: `sawa` attacks `sawa2` (agi 28, evade chance 0.28) who
declared Evade; the 0.1 draw succeeds and negates the attack with one
draw consumed. -/
theorem evade_negates_attack_witness :
    evadeFixture.actionOf Side.A = some ACTION.ATTACK ∧
    evadeFixture.actionOf Side.B = some ACTION.EVADE ∧
    (constRNG (mkRat 1 10)).draws (constRNG (mkRat 1 10)).idx
      < max (5 / 100) (min (60 / 100) (((evadeFixture.player Side.B).agi : ℚ) / 100)) ∧
    evadeFixture.processSingleAction Side.A Side.B (constRNG (mkRat 1 10))
      = (evadeFixture,
         { constRNG (mkRat 1 10) with idx := (constRNG (mkRat 1 10)).idx + 1 }) := by
  refine ⟨by decide, by decide, by decide, ?_⟩
  exact evade_negates_attack evadeFixture Side.A Side.B (constRNG (mkRat 1 10))
    (by decide) (by decide) (by decide)

/-- C9: with non-negative stats, every damage value `calcDamage`
produces is a non-negative integer; a battle created from combatants
at full non-negative hp satisfies the hp bounds, and every
`setAction` call (hence every operation on a battle) keeps both
combatants' hp within `[0, maxHp]`. -/
theorem damage_nonneg_hp_clamped (attacker defender : Combatant) (da : Option String)
    (b : Battle) (p a : String) (cA cB : Combatant) (g g2 g3 : RNG) :
    (0 ≤ attacker.atk → 0 ≤ (Battle.calcDamage attacker defender da g).1.dmg) ∧
    (0 ≤ cA.maxHp → 0 ≤ cB.maxHp → cA.hp = cA.maxHp → cB.hp = cB.maxHp →
      Battle.HpInv ((Battle.create cA cB g3).1)) ∧
    (Battle.AtkOk b → Battle.HpInv b →
      Battle.HpInv ((b.setAction p a g2).2.1)) := by
  refine ⟨?_, ?_, ?_⟩
  · intro h
    exact Battle.calcDamage_dmg_nonneg attacker defender da g h
  · intro h1 h2 h3 h4
    unfold Battle.HpInv
    simp [h3, h4, h1, h2]
  · intro ha hi
    exact Battle.setAction_hpInv b p a g2 ha hi

/-- C9 witness: concrete damage is non-negative and a full round
between `fighterA` and `fighterB` keeps hp within bounds. -/
theorem damage_nonneg_hp_clamped_witness :
    0 ≤ sawa.atk ∧
    0 ≤ (Battle.calcDamage sawa sawa2 none rngHalf).1.dmg ∧
    (fighterA.hp = fighterA.maxHp ∧ Battle.HpInv createdBattle) ∧
    (Battle.AtkOk bothReady ∧ Battle.HpInv bothReady ∧
      Battle.HpInv ((bothReady.setAction "b" ACTION.ATTACK rngHalf).2.1)) := by
  have h := damage_nonneg_hp_clamped sawa sawa2 none bothReady "b" ACTION.ATTACK
    fighterA fighterB rngHalf rngHalf (constRNG 0)
  have hatk : Battle.AtkOk bothReady := ⟨by decide, by decide⟩
  have hhp : Battle.HpInv bothReady := ⟨by decide, by decide, by decide, by decide⟩
  refine ⟨by decide, h.1 (by decide), ⟨by decide, ?_⟩, ⟨hatk, hhp, ?_⟩⟩
  · exact h.2.1 (by decide) (by decide) (by decide) (by decide)
  · exact h.2.2 hatk hhp

/-- C10: whenever the caller is registered in a live battle,
`BattleManager.submitAction` answers `ok = true` no matter what the
submitted action is — even when the underlying `Battle.setAction`
rejects it — and merely passes the delegated call's message through
(the result record has no other field besides `ok` and `message`, so
no finished/winner information is carried). -/
theorem submitAction_ok_passthrough (m : BattleManager) (p a : String) (g : RNG)
    (battle : Battle) (h : m.findBattleForPlayer p = some battle) :
    (m.submitAction p a g).1.ok = true ∧
    (m.submitAction p a g).1.message = (battle.setAction p a g).1.message := by
  obtain ⟨bid, hbid, _⟩ := BattleManager.findBattle_decomp m p battle h
  simp only [BattleManager.submitAction, h, hbid]
  exact ⟨trivial, trivial⟩

/-- C10 witness: a registered caller submitting the invalid action
`"jump"` still receives `ok = true`, with the rejection only in the
message. -/
theorem submitAction_ok_passthrough_witness :
    managerWithBattle.findBattleForPlayer "a" = some createdBattle ∧
    (managerWithBattle.submitAction "a" "jump" rngHalf).1.ok = true ∧
    (managerWithBattle.submitAction "a" "jump" rngHalf).1.message
      = (createdBattle.setAction "a" "jump" rngHalf).1.message ∧
    (createdBattle.setAction "a" "jump" rngHalf).1.done = false := by
  have h := submitAction_ok_passthrough managerWithBattle "a" "jump" rngHalf
    createdBattle (by decide)
  exact ⟨by decide, h.1, h.2, by decide⟩

/-- C5: the registry invariant — an identity appears in
`battleIdByPlayer` iff it is part of exactly one non-finished
registered battle — is preserved by `startBattle` (for distinct
identities) and by `submitAction`; and when a submission finishes the
battle, the same `submitAction` call removes both participants and
the pair key, so an immediate re-`startBattle` of the same pair
succeeds. -/
theorem registry_invariant :
    (∀ (m : BattleManager) (cA cB : Combatant) (g : RNG),
      BattleManager.Inv m → cA.id ≠ cB.id →
      BattleManager.Inv ((m.startBattle cA cB g).2.1)) ∧
    (∀ (m : BattleManager) (p a : String) (g : RNG),
      BattleManager.Inv m → BattleManager.Inv ((m.submitAction p a g).2.1)) ∧
    (∀ (m : BattleManager) (acct : String),
      BattleManager.Inv m →
      ((m.battleIdByPlayer acct).isSome = true ↔
        ∃ bid bt, m.battlesById bid = some bt ∧ bt.isFinished = false ∧
          (acct = bt.playerA.id ∨ acct = bt.playerB.id))) ∧
    (∀ (m : BattleManager) (bid1 bid2 : String) (bt1 bt2 : Battle) (acct : String),
      BattleManager.Inv m →
      m.battlesById bid1 = some bt1 → m.battlesById bid2 = some bt2 →
      (acct = bt1.playerA.id ∨ acct = bt1.playerB.id) →
      (acct = bt2.playerA.id ∨ acct = bt2.playerB.id) →
      bid1 = bid2 ∧ bt1 = bt2) ∧
    (∀ (m : BattleManager) (p a : String) (g : RNG) (bt : Battle),
      BattleManager.Inv m → m.findBattleForPlayer p = some bt →
      ((bt.setAction p a g).2.1).isFinished = true →
      ((m.submitAction p a g).2.1).battleIdByPlayer bt.playerA.id = none ∧
      ((m.submitAction p a g).2.1).battleIdByPlayer bt.playerB.id = none ∧
      ((m.submitAction p a g).2.1).battlesById
        (makeBattleId bt.playerA.id bt.playerB.id) = none ∧
      ∀ g2 : RNG,
        (((m.submitAction p a g).2.1).startBattle bt.playerA bt.playerB g2).1.ok
          = true) := by
  refine ⟨?_, ?_, ?_, ?_, ?_⟩
  · intro m cA cB g hInv hne
    exact BattleManager.startBattle_inv m cA cB g hInv hne
  · intro m p a g hInv
    exact BattleManager.submitAction_inv m p a g hInv
  · intro m acct hInv
    obtain ⟨inv1, inv2⟩ := hInv
    constructor
    · intro hs
      rw [Option.isSome_iff_exists] at hs
      obtain ⟨bid, hbid⟩ := hs
      obtain ⟨bt, hbt, hpart⟩ := inv1 acct bid hbid
      exact ⟨bid, bt, hbt, (inv2 bid bt hbt).1, hpart⟩
    · rintro ⟨bid, bt, hbt, hfin, hpart⟩
      obtain ⟨_, _, _, hpa, hpb⟩ := inv2 bid bt hbt
      rcases hpart with h | h
      · rw [h, hpa]
        rfl
      · rw [h, hpb]
        rfl
  · intro m bid1 bid2 bt1 bt2 acct hInv h1 h2 hp1 hp2
    obtain ⟨inv1, inv2⟩ := hInv
    have k1 : m.battleIdByPlayer acct = some bid1 := by
      rcases hp1 with h | h
      · rw [h]
        exact (inv2 bid1 bt1 h1).2.2.2.1
      · rw [h]
        exact (inv2 bid1 bt1 h1).2.2.2.2
    have k2 : m.battleIdByPlayer acct = some bid2 := by
      rcases hp2 with h | h
      · rw [h]
        exact (inv2 bid2 bt2 h2).2.2.2.1
      · rw [h]
        exact (inv2 bid2 bt2 h2).2.2.2.2
    have hb : bid1 = bid2 := by
      rw [k1] at k2
      exact Option.some.inj k2
    refine ⟨hb, ?_⟩
    subst hb
    rw [h1] at h2
    exact Option.some.inj h2
  · intro m p a g bt hInv hfb hf
    exact BattleManager.submitAction_cleanup m p a g hInv bt hfb hf

/-- C5 witness: starting `fighterA` vs `fighterB` from the empty
registry, recording A's attack, and then B's finishing attack removes
both identities and the pair key in that same call, after which the
pair can start a new battle at once. -/
theorem registry_invariant_witness :
    fighterA.id ≠ fighterB.id ∧
    managerMid.findBattleForPlayer "b" = some midBattle ∧
    ((midBattle.setAction "b" ACTION.ATTACK rngHalf).2.1).isFinished = true ∧
    ((managerMid.submitAction "b" ACTION.ATTACK rngHalf).2.1).battleIdByPlayer
      midBattle.playerA.id = none ∧
    ((managerMid.submitAction "b" ACTION.ATTACK rngHalf).2.1).battleIdByPlayer
      midBattle.playerB.id = none ∧
    ((managerMid.submitAction "b" ACTION.ATTACK rngHalf).2.1).battlesById
      (makeBattleId midBattle.playerA.id midBattle.playerB.id) = none ∧
    (((managerMid.submitAction "b" ACTION.ATTACK rngHalf).2.1).startBattle
      midBattle.playerA midBattle.playerB rngHalf).1.ok = true := by
  have hInv1 : BattleManager.Inv managerWithBattle :=
    registry_invariant.1 BattleManager.empty fighterA fighterB (constRNG 0)
      BattleManager.inv_empty (by decide)
  have hInv2 : BattleManager.Inv managerMid :=
    registry_invariant.2.1 managerWithBattle "a" ACTION.ATTACK rngHalf hInv1
  have hclean := registry_invariant.2.2.2.2 managerMid "b" ACTION.ATTACK rngHalf
    midBattle hInv2 (by decide) (by decide)
  exact ⟨by decide, by decide, by decide, hclean.1, hclean.2.1, hclean.2.2.1,
    hclean.2.2.2 rngHalf⟩

/-- C2: with both actions set on a live battle, `resolveRound` applies
the first side's action, re-checks the end condition before applying
the second side's action (skipping it — no hp change and no further
draw — when the battle already ended), and then either finishes (both
hp ≤ 0 gives a draw with no winner, exactly one hp ≤ 0 names the
survivor as winner) or increments the round counter by one and clears
both action slots. -/
theorem resolveRound_end_or_advance (b : Battle) (g : RNG)
    (hf : b.isFinished = false)
    (hA : b.actionA.isSome = true) (hB : b.actionB.isSome = true) :
    (((b.resolveRound g).1.playerA.hp ≤ 0 ∧ (b.resolveRound g).1.playerB.hp ≤ 0) →
      (b.resolveRound g).1.isFinished = true ∧ (b.resolveRound g).1.winnerId = none) ∧
    (((b.resolveRound g).1.playerA.hp ≤ 0 ∧ ¬ (b.resolveRound g).1.playerB.hp ≤ 0) →
      (b.resolveRound g).1.isFinished = true ∧
      (b.resolveRound g).1.winnerId = some b.playerB.id) ∧
    ((¬ (b.resolveRound g).1.playerA.hp ≤ 0 ∧ (b.resolveRound g).1.playerB.hp ≤ 0) →
      (b.resolveRound g).1.isFinished = true ∧
      (b.resolveRound g).1.winnerId = some b.playerA.id) ∧
    ((¬ (b.resolveRound g).1.playerA.hp ≤ 0 ∧ ¬ (b.resolveRound g).1.playerB.hp ≤ 0) →
      (b.resolveRound g).1.isFinished = false ∧
      (b.resolveRound g).1.round = b.round + 1 ∧
      (b.resolveRound g).1.actionA = none ∧ (b.resolveRound g).1.actionB = none) ∧
    (((b.processSingleAction b.turnOrder.1 b.turnOrder.2 g).1.checkEnd).1 = true →
      (b.resolveRound g).1.playerA.hp
        = (b.processSingleAction b.turnOrder.1 b.turnOrder.2 g).1.playerA.hp ∧
      (b.resolveRound g).1.playerB.hp
        = (b.processSingleAction b.turnOrder.1 b.turnOrder.2 g).1.playerB.hp ∧
      (b.resolveRound g).2 = (b.processSingleAction b.turnOrder.1 b.turnOrder.2 g).2) := by
  by_cases he1 :
      ((b.processSingleAction b.turnOrder.1 b.turnOrder.2 g).1.checkEnd).1 = true
  · rw [Battle.resolveRound_of_end1 b g he1]
    have hX :
        (((b.processSingleAction b.turnOrder.1 b.turnOrder.2 g).1.checkEnd).2.checkEnd).1
          = true := by
      rw [Battle.checkEnd_fst_iff] at he1 ⊢
      simpa using he1
    refine ⟨?_, ?_, ?_, ?_, ?_⟩
    · rintro ⟨h1, h2⟩
      exact ⟨Battle.checkEnd_isFinished_of_true _ hX,
        Battle.checkEnd_winner_draw _ (by simpa using h1) (by simpa using h2)⟩
    · rintro ⟨h1, h2⟩
      refine ⟨Battle.checkEnd_isFinished_of_true _ hX, ?_⟩
      have hw := Battle.checkEnd_winner_B
        ((b.processSingleAction b.turnOrder.1 b.turnOrder.2 g).1.checkEnd).2
        (by simpa using h1) (by simpa using h2)
      simpa using hw
    · rintro ⟨h1, h2⟩
      refine ⟨Battle.checkEnd_isFinished_of_true _ hX, ?_⟩
      have hw := Battle.checkEnd_winner_A
        ((b.processSingleAction b.turnOrder.1 b.turnOrder.2 g).1.checkEnd).2
        (by simpa using h1) (by simpa using h2)
      simpa using hw
    · rintro ⟨h1, h2⟩
      exfalso
      rw [Battle.checkEnd_fst_iff] at hX
      rcases hX with hh | hh
      · exact h1 (by simpa using hh)
      · exact h2 (by simpa using hh)
    · intro _
      exact ⟨by simp, by simp, rfl⟩
  · have he1' :
        ((b.processSingleAction b.turnOrder.1 b.turnOrder.2 g).1.checkEnd).1 = false := by
      simpa using he1
    by_cases he2 :
        (((b.processSingleAction b.turnOrder.1 b.turnOrder.2 g).1.processSingleAction
          b.turnOrder.2 b.turnOrder.1
          (b.processSingleAction b.turnOrder.1 b.turnOrder.2 g).2).1.checkEnd).1 = true
    · rw [Battle.resolveRound_of_end2 b g he1' he2]
      refine ⟨?_, ?_, ?_, ?_, ?_⟩
      · rintro ⟨h1, h2⟩
        exact ⟨Battle.checkEnd_isFinished_of_true _ he2,
          Battle.checkEnd_winner_draw _ (by simpa using h1) (by simpa using h2)⟩
      · rintro ⟨h1, h2⟩
        refine ⟨Battle.checkEnd_isFinished_of_true _ he2, ?_⟩
        have hw := Battle.checkEnd_winner_B _ (by simpa using h1) (by simpa using h2)
        simpa using hw
      · rintro ⟨h1, h2⟩
        refine ⟨Battle.checkEnd_isFinished_of_true _ he2, ?_⟩
        have hw := Battle.checkEnd_winner_A _ (by simpa using h1) (by simpa using h2)
        simpa using hw
      · rintro ⟨h1, h2⟩
        exfalso
        rw [Battle.checkEnd_fst_iff] at he2
        rcases he2 with hh | hh
        · exact h1 (by simpa using hh)
        · exact h2 (by simpa using hh)
      · intro hcon
        exact absurd hcon he1
    · have he2' :
          (((b.processSingleAction b.turnOrder.1 b.turnOrder.2 g).1.processSingleAction
            b.turnOrder.2 b.turnOrder.1
            (b.processSingleAction b.turnOrder.1 b.turnOrder.2 g).2).1.checkEnd).1
            = false := by
        simpa using he2
      rw [Battle.resolveRound_of_no_end b g he1' he2']
      have hb := mt (Battle.checkEnd_fst_iff
        ((b.processSingleAction b.turnOrder.1 b.turnOrder.2 g).1.processSingleAction
          b.turnOrder.2 b.turnOrder.1
          (b.processSingleAction b.turnOrder.1 b.turnOrder.2 g).2).1).mpr
        (by simp [he2'])
      rw [not_or] at hb
      obtain ⟨hb1, hb2⟩ := hb
      refine ⟨?_, ?_, ?_, ?_, ?_⟩
      · rintro ⟨h1, _⟩
        exact absurd (by simpa using h1) hb1
      · rintro ⟨h1, _⟩
        exact absurd (by simpa using h1) hb1
      · rintro ⟨_, h2⟩
        exact absurd (by simpa using h2) hb2
      · intro _
        refine ⟨by simp [hf], by simp, rfl, rfl⟩
      · intro hcon
        exact absurd hcon he1

/-- C2 witness: both fighters declare Attack; the first strike drops
`fighterB` to 0, so the round finishes with `fighterA` as winner. -/
theorem resolveRound_end_or_advance_witness :
    bothReady.isFinished = false ∧
    bothReady.actionA.isSome = true ∧
    bothReady.actionB.isSome = true ∧
    (¬ (bothReady.resolveRound rngHalf).1.playerA.hp ≤ 0 ∧
      (bothReady.resolveRound rngHalf).1.playerB.hp ≤ 0) ∧
    (bothReady.resolveRound rngHalf).1.isFinished = true ∧
    (bothReady.resolveRound rngHalf).1.winnerId = some bothReady.playerA.id := by
  have h := resolveRound_end_or_advance bothReady rngHalf (by decide) (by decide) (by decide)
  have hc : ¬ (bothReady.resolveRound rngHalf).1.playerA.hp ≤ 0 ∧
      (bothReady.resolveRound rngHalf).1.playerB.hp ≤ 0 := by decide
  exact ⟨by decide, by decide, by decide, hc, (h.2.2.1 hc).1, (h.2.2.1 hc).2⟩
